import Mathlib

/-!
Shallow embedding of `generate_chats_v0.4.py` (Random_Chat_Generator).

Conventions of the embedding:
* Python floats are modelled as rationals (`ℚ`); Python `int(x)` truncation
  toward zero is `pyTrunc`.
* The process-wide pseudo-random source is made explicit: each random draw the
  code performs becomes a parameter.  For `generate_random_points`, one
  recursive attempt consumes a stream of `(uniform fuzz, coin)` pairs, so the
  whole procedure takes a list of such streams, one per attempt; the empty
  list of remaining attempts yields `none` (the source would keep recursing).
* `random.uniform(a, b)` returns a value between `a` and `b` in either order
  of the endpoints; `validDraw` records exactly that range constraint.
-/

/-- Python `int(x)`: truncation toward zero. -/
def pyTrunc (q : ℚ) : Int :=
  if 0 ≤ q then ⌊q⌋ else ⌈q⌉

/-- One iteration of the sampling loop in
`MessageGenerator.generate_random_points` draws `random.uniform(...)` (the
fuzz) and `random.choice([True, False])` (the branch coin). -/
structure Draw where
  fuzz : ℚ
  coin : Bool
deriving DecidableEq

/-- `over_run_count = 10` (source line 389). -/
def over_run_count : Nat := 10

/-- `fuzz_range_min = 1` (source line 390). -/
def fuzz_range_min : ℚ := 1

/-- `fuzz_range_max = duration - (count + (over_run_count * 2))` (source line 391). -/
def fuzz_range_max (duration : ℚ) (count : Nat) : ℚ :=
  duration - (count + (over_run_count * 2 : Nat))

/-- `count_with_overrun = count + over_run_count` (source line 393). -/
def count_with_overrun (count : Nat) : Nat :=
  count + over_run_count

/-- `mean_response_time = duration / count_with_overrun` (source line 394). -/
def mean_response_time (duration : ℚ) (count : Nat) : ℚ :=
  duration / (count_with_overrun count : ℚ)

/-- Body of the loop (source line 399):
`fuzzed_time = mean_response_time + fuzz if random.choice([True, False]) else
max(mean_response_time - fuzz, 1)`. -/
def fuzzed_time (mean : ℚ) (d : Draw) : ℚ :=
  if d.coin then mean + d.fuzz else max (mean - d.fuzz) 1

/-- One attempt of `generate_random_points`: the loop runs
`count_with_overrun + over_run_count` times collecting `fuzzed_time` values
(source lines 395-400), then the working list is truncated to the first
`count` entries, `points = points[:count]` (source line 402). -/
def attemptPoints (duration : ℚ) (count : Nat) (draws : Nat → Draw) : List ℚ :=
  (((List.range (count_with_overrun count + over_run_count)).map
    (fun i => fuzzed_time (mean_response_time duration count) (draws i))).take count)

/-- `MessageGenerator.generate_random_points` (source lines 387-406).  Each
element of `attempts` supplies the random draws of one recursive attempt:
`if sum(points) > duration: return points` else recurse; with no attempts
left the model answers `none` (the source would recurse forever or further). -/
def generate_random_points (duration : ℚ) (count : Nat) :
    List (Nat → Draw) → Option (List ℚ)
  | [] => none
  | ds :: rest =>
    let points := attemptPoints duration count ds
    if duration < points.sum then some points
    else generate_random_points duration count rest

/-- The range constraint `random.uniform(fuzz_range_min, fuzz_range_max)`
guarantees: the result lies between the two endpoints, in either order. -/
def validDraw (duration : ℚ) (count : Nat) (d : Draw) : Prop :=
  min fuzz_range_min (fuzz_range_max duration count) ≤ d.fuzz ∧
    d.fuzz ≤ max fuzz_range_min (fuzz_range_max duration count)

instance (duration : ℚ) (count : Nat) (d : Draw) :
    Decidable (validDraw duration count d) := by
  unfold validDraw; infer_instance

/-- All draws an attempt actually consumes are in the uniform range. -/
def validAttempt (duration : ℚ) (count : Nat) (draws : Nat → Draw) : Prop :=
  ∀ i < count_with_overrun count + over_run_count, validDraw duration count (draws i)

instance (duration : ℚ) (count : Nat) (draws : Nat → Draw) :
    Decidable (validAttempt duration count draws) := by
  unfold validAttempt; infer_instance

/-- C1: in each round of `generate_random_points`, the truncated count-length
list is returned exactly when its sum strictly exceeds `duration`; a list
whose sum is at most `duration` is discarded and the whole procedure
restarts with fresh draws. -/
theorem generate_random_points_accept_reject (duration : ℚ) (count : Nat)
    (ds : Nat → Draw) (rest : List (Nat → Draw)) :
    (duration < (attemptPoints duration count ds).sum →
      generate_random_points duration count (ds :: rest) =
        some (attemptPoints duration count ds)) ∧
    ((attemptPoints duration count ds).sum ≤ duration →
      generate_random_points duration count (ds :: rest) =
        generate_random_points duration count rest) := by
  constructor
  · intro h
    simp [generate_random_points, h]
  · intro h
    simp [generate_random_points, not_lt.mpr h]

/-- Draw stream whose first fuzz is `979` and whose later fuzzes are `1`,
all coins `True`; used as a concrete accepted attempt at
`duration = 1000`, `count = 1`. -/
def drawsBig : Nat → Draw :=
  fun i => if i = 0 then ⟨979, true⟩ else ⟨1, true⟩

/-- The truncated working list always has length `count`: the loop collects
`count + 2 * over_run_count` candidates, of which `points[:count]` keeps the
first `count`. -/
lemma attemptPoints_length (duration : ℚ) (count : Nat) (draws : Nat → Draw) :
    (attemptPoints duration count draws).length = count := by
  simp only [attemptPoints, List.length_take, List.length_map, List.length_range]
  simp only [count_with_overrun, over_run_count]
  omega

/-- Concrete accepted run: at `duration = 1000`, `count = 1`, the attempt
`drawsBig` yields the single point `1000/11 + 979 = 11769/11`, whose sum
exceeds `1000`, so it is returned. -/
lemma drawsBig_run : generate_random_points 1000 1 [drawsBig] = some [11769/11] := by
  have hpts : attemptPoints 1000 1 drawsBig = [11769/11] := by
    norm_num [attemptPoints, count_with_overrun, over_run_count, mean_response_time,
      fuzzed_time, drawsBig, List.range_succ]
  have hsum : (1000 : ℚ) < (attemptPoints 1000 1 drawsBig).sum := by
    rw [hpts]; norm_num
  simpa [generate_random_points, hsum] using hpts

/-- Witness for C1: at `duration = 50`, `count = 1`, an all-ones attempt has
sum `61/11 ≤ 50`, so it is rejected and the procedure restarts (here: no
attempts remain, so the model answers `none`). -/
theorem generate_random_points_accept_reject_witness :
    (attemptPoints 50 1 (fun _ => ⟨1, true⟩)).sum ≤ 50 ∧
      generate_random_points 50 1 [fun _ => ⟨1, true⟩] = none := by
  have hsum : (attemptPoints 50 1 (fun _ => ⟨1, true⟩)).sum ≤ 50 := by
    norm_num [attemptPoints, count_with_overrun, over_run_count, mean_response_time,
      fuzzed_time, List.range_succ]
  refine ⟨hsum, ?_⟩
  have h := (generate_random_points_accept_reject 50 1 (fun _ => ⟨1, true⟩) []).2 hsum
  simpa [generate_random_points] using h

/-- Whenever `generate_random_points` returns, the result is the truncated
working list of one attempt, so it has length `count`. -/
lemma generate_random_points_length_aux (duration : ℚ) (count : Nat)
    (attempts : List (Nat → Draw)) (pts : List ℚ)
    (h : generate_random_points duration count attempts = some pts) :
    pts.length = count := by
  induction attempts with
  | nil => simp [generate_random_points] at h
  | cons ds rest ih =>
    by_cases hlt : duration < (attemptPoints duration count ds).sum
    · simp only [generate_random_points, if_pos hlt, Option.some.injEq] at h
      subst h
      exact attemptPoints_length duration count ds
    · simp only [generate_random_points, if_neg hlt] at h
      exact ih h

/-- C6: whenever `generate_random_points` returns, the returned offset
sequence has length exactly `count`: the working list of
`count + 2 * over_run_count` candidates is truncated to its first `count`
entries before the sum check. -/
theorem generate_random_points_count (duration : ℚ) (count : Nat)
    (attempts : List (Nat → Draw)) (pts : List ℚ)
    (h : generate_random_points duration count attempts = some pts) :
    pts.length = count :=
  generate_random_points_length_aux duration count attempts pts h

/-- Witness for C6: the accepted run at `duration = 1000`, `count = 1`
returns a list of length `1`. -/
theorem generate_random_points_count_witness :
    ∃ pts, generate_random_points 1000 1 [drawsBig] = some pts ∧ pts.length = 1 :=
  ⟨[11769/11], drawsBig_run,
    generate_random_points_count 1000 1 [drawsBig] [11769/11] drawsBig_run⟩

/-- The `drawsBig` attempt is inside the uniform range at
`duration = 1000`, `count = 1` (fuzz range `[1, 979]`). -/
lemma drawsBig_valid : validAttempt 1000 1 drawsBig := by
  intro i hi
  unfold validDraw drawsBig fuzz_range_min fuzz_range_max over_run_count
  by_cases h0 : i = 0 <;> simp only [h0, if_true, if_pos, if_neg, if_false] <;>
    norm_num

/-- Counterexample to C2: at `duration = 1000`, `count = 1`, with in-range
uniform draws, the procedure terminates returning the single offset
`11769/11 ≈ 1070`, which is strictly greater than `duration`; so not every
returned offset lies in `[1, duration]`. -/
theorem generate_random_points_offset_exceeds_duration :
    validAttempt 1000 1 drawsBig ∧
      generate_random_points 1000 1 [drawsBig] = some [11769/11] ∧
      ¬ ((11769 : ℚ) / 11 ≤ 1000) :=
  ⟨drawsBig_valid, drawsBig_run, by norm_num⟩

/-- Every candidate produced by one in-range attempt lies in
`[1, mean_response_time + fuzz_range_max]`, provided
`duration ≥ count + 21` (so the uniform fuzz range is not inverted). -/
lemma attemptPoints_mem_bounds (duration : ℚ) (count : Nat) (draws : Nat → Draw)
    (hvalid : validAttempt duration count draws)
    (hd : (count : ℚ) + 21 ≤ duration) :
    ∀ x ∈ attemptPoints duration count draws,
      1 ≤ x ∧ x ≤ mean_response_time duration count + fuzz_range_max duration count := by
  have hfmax : (1 : ℚ) ≤ fuzz_range_max duration count := by
    unfold fuzz_range_max over_run_count
    push_cast
    linarith
  have hmean : (0 : ℚ) ≤ mean_response_time duration count := by
    have hc : (0 : ℚ) ≤ (count : ℚ) := Nat.cast_nonneg count
    unfold mean_response_time count_with_overrun over_run_count
    apply div_nonneg (by linarith)
    positivity
  intro x hx
  obtain ⟨i, hi, hfi⟩ := List.mem_map.mp (List.mem_of_mem_take hx)
  have hiv := hvalid i (List.mem_range.mp hi)
  have hmin : min fuzz_range_min (fuzz_range_max duration count) = 1 :=
    min_eq_left hfmax
  have hmaxr : max fuzz_range_min (fuzz_range_max duration count) =
      fuzz_range_max duration count := max_eq_right hfmax
  obtain ⟨hlo, hhi⟩ := hiv
  rw [hmin] at hlo
  rw [hmaxr] at hhi
  subst hfi
  unfold fuzzed_time
  by_cases hc : (draws i).coin
  · simp only [hc, if_true]
    exact ⟨by linarith, by linarith⟩
  · simp only [hc, if_false, Bool.false_eq_true]
    refine ⟨le_max_right _ _, max_le (by linarith) (by linarith)⟩

/-- A returned offset set inherits the per-candidate bounds of the attempt it
came from. -/
lemma generate_random_points_mem_aux (duration : ℚ) (count : Nat)
    (attempts : List (Nat → Draw)) (pts : List ℚ)
    (hvalid : ∀ ds ∈ attempts, validAttempt duration count ds)
    (hd : (count : ℚ) + 21 ≤ duration)
    (hret : generate_random_points duration count attempts = some pts) :
    ∀ x ∈ pts,
      1 ≤ x ∧ x ≤ mean_response_time duration count + fuzz_range_max duration count := by
  induction attempts with
  | nil => simp [generate_random_points] at hret
  | cons ds rest ih =>
    by_cases hlt : duration < (attemptPoints duration count ds).sum
    · simp only [generate_random_points, if_pos hlt, Option.some.injEq] at hret
      subst hret
      exact attemptPoints_mem_bounds duration count ds (hvalid ds (by simp)) hd
    · simp only [generate_random_points, if_neg hlt] at hret
      exact ih (fun e he => hvalid e (by simp [he])) hret

/-- C2 (amended): when `duration ≥ count + 21` and all draws are in the
uniform range, every returned offset lies in
`[1, duration/(count+10) + (duration - (count+20))]`; the original upper
bound `duration` itself can be exceeded. -/
theorem generate_random_points_offsets_in_range (duration : ℚ) (count : Nat)
    (attempts : List (Nat → Draw)) (pts : List ℚ)
    (hvalid : ∀ ds ∈ attempts, validAttempt duration count ds)
    (hd : (count : ℚ) + 21 ≤ duration)
    (hret : generate_random_points duration count attempts = some pts) :
    ∀ x ∈ pts,
      1 ≤ x ∧ x ≤ mean_response_time duration count + fuzz_range_max duration count :=
  generate_random_points_mem_aux duration count attempts pts hvalid hd hret

/-- Draw stream with first fuzz `1079` (the maximal uniform value at
`duration = 1100`, `count = 1`) and all later fuzzes `1`, all coins `True`. -/
def drawsHuge : Nat → Draw :=
  fun i => if i = 0 then ⟨1079, true⟩ else ⟨1, true⟩

/-- Concrete accepted run at `duration = 1100`, `count = 1`:
the single point is `1100/11 + 1079 = 1179 > 1100`, so it is returned. -/
lemma drawsHuge_run : generate_random_points 1100 1 [drawsHuge] = some [1179] := by
  have hpts : attemptPoints 1100 1 drawsHuge = [1179] := by
    norm_num [attemptPoints, count_with_overrun, over_run_count, mean_response_time,
      fuzzed_time, drawsHuge, List.range_succ]
  have hsum : (1100 : ℚ) < (attemptPoints 1100 1 drawsHuge).sum := by
    rw [hpts]; norm_num
  simpa [generate_random_points, hsum] using hpts

/-- The `drawsHuge` attempt is inside the uniform range at
`duration = 1100`, `count = 1`. -/
lemma drawsHuge_valid : validAttempt 1100 1 drawsHuge := by
  intro i hi
  unfold validDraw drawsHuge fuzz_range_min fuzz_range_max over_run_count
  by_cases h0 : i = 0 <;> simp only [h0, if_true, if_pos, if_neg, if_false] <;>
    norm_num

/-- Witness for the amended C2: the run at `duration = 1100`, `count = 1`
returns `[1179]`, and `1179` indeed lies in `[1, 1100/11 + 1079]`. -/
theorem generate_random_points_offsets_in_range_witness :
    ((1 : Nat) : ℚ) + 21 ≤ 1100 ∧
      (∀ x ∈ [(1179 : ℚ)],
        1 ≤ x ∧ x ≤ mean_response_time 1100 1 + fuzz_range_max 1100 1) := by
  refine ⟨by norm_num, ?_⟩
  exact generate_random_points_offsets_in_range 1100 1 [drawsHuge] [1179]
    (fun ds hds => by
      rw [List.mem_singleton.mp hds]
      exact drawsHuge_valid)
    (by norm_num) drawsHuge_run

/-- At `duration = 30`, `count = 10`, the fuzz range is `[0, 1]`
(`fuzz_range_max = 0`, inverted against `fuzz_range_min = 1`), the mean is
`3/2`, so every candidate is at most `5/2` and the ten kept points sum to at
most `25`. -/
lemma attemptPoints_sum_le_25 (draws : Nat → Draw)
    (hvalid : validAttempt 30 10 draws) :
    (attemptPoints 30 10 draws).sum ≤ 25 := by
  have hmem : ∀ x ∈ attemptPoints 30 10 draws, x ≤ 5/2 := by
    intro x hx
    obtain ⟨i, hi, hfi⟩ := List.mem_map.mp (List.mem_of_mem_take hx)
    have hiv := hvalid i (List.mem_range.mp hi)
    obtain ⟨hlo, hhi⟩ := hiv
    have hmin : min fuzz_range_min (fuzz_range_max 30 10) = 0 := by
      unfold fuzz_range_min fuzz_range_max over_run_count
      norm_num
    have hmaxr : max fuzz_range_min (fuzz_range_max 30 10) = 1 := by
      unfold fuzz_range_min fuzz_range_max over_run_count
      norm_num
    rw [hmin] at hlo
    rw [hmaxr] at hhi
    have hmean : mean_response_time 30 10 = 3/2 := by
      unfold mean_response_time count_with_overrun over_run_count
      norm_num
    subst hfi
    unfold fuzzed_time
    rw [hmean]
    by_cases hc : (draws i).coin
    · simp only [hc, if_true]
      linarith
    · simp only [hc, if_false, Bool.false_eq_true]
      exact max_le (by linarith) (by norm_num)
  calc (attemptPoints 30 10 draws).sum
      ≤ (attemptPoints 30 10 draws).length • (5/2 : ℚ) :=
        List.sum_le_card_nsmul _ _ hmem
    _ = 25 := by rw [attemptPoints_length]; norm_num

/-- C4: at `duration = 30`, `count = 10` the acceptance condition
`sum(points) > duration` can never be satisfied (every in-range attempt sums
to at most `25 < 30`), so for every sequence of in-range random draws the
procedure rejects every attempt and never returns: the source, which imposes
no retry ceiling, retries indefinitely. -/
theorem generate_random_points_infeasible (attempts : List (Nat → Draw))
    (hvalid : ∀ ds ∈ attempts, validAttempt 30 10 ds) :
    generate_random_points 30 10 attempts = none := by
  induction attempts with
  | nil => rfl
  | cons ds rest ih =>
    have hsum := attemptPoints_sum_le_25 ds (hvalid ds (by simp))
    have hnlt : ¬ (30 : ℚ) < (attemptPoints 30 10 ds).sum :=
      not_lt.mpr (le_trans hsum (by norm_num))
    simp only [generate_random_points, if_neg hnlt]
    exact ih (fun e he => hvalid e (by simp [he]))

/-- An in-range attempt at `duration = 30`, `count = 10`: every fuzz is
`1/2 ∈ [0, 1]`, every coin is `True`. -/
def drawsHalf : Nat → Draw := fun _ => ⟨1/2, true⟩

/-- Witness for C4: with the concrete in-range attempt `drawsHalf`, the
procedure rejects it and never returns. -/
theorem generate_random_points_infeasible_witness :
    generate_random_points 30 10 [drawsHalf] = none := by
  apply generate_random_points_infeasible
  intro ds hds
  rw [List.mem_singleton.mp hds]
  intro i hi
  unfold validDraw drawsHalf fuzz_range_min fuzz_range_max over_run_count
  norm_num

/-- `MessageGenerator.generate_random_message_datetimes` (source lines
380-384): `time_difference = int((end - start).total_seconds())`, then
`deltas = generate_random_points(time_difference, count)` and
`[start + timedelta(seconds=delta) for delta in deltas]`.  Instants are
modelled as rational seconds. -/
def generate_random_message_datetimes (start endt : ℚ) (count : Nat)
    (attempts : List (Nat → Draw)) : Option (List ℚ) :=
  let time_difference : Int := pyTrunc (endt - start)
  (generate_random_points (time_difference : ℚ) count attempts).map
    (fun deltas => deltas.map (fun delta => start + delta))

/-- `int((1000 : ℚ) - 0)` is `1000`. -/
lemma pyTrunc_thousand : pyTrunc ((1000 : ℚ) - 0) = 1000 := by
  unfold pyTrunc
  norm_num

/-- `int((1100 : ℚ) - 0)` is `1100`. -/
lemma pyTrunc_eleven_hundred : pyTrunc ((1100 : ℚ) - 0) = 1100 := by
  unfold pyTrunc
  norm_num

/-- Counterexample to C3: for the window `[0, 1000]` (seconds) with
`count = 1` and in-range draws, the generated timeline is `[11769/11]`,
whose single instant lies strictly beyond the window end `1000`. -/
theorem generate_random_message_datetimes_escapes_window :
    (0 : ℚ) ≤ 1000 ∧
      validAttempt ((pyTrunc ((1000 : ℚ) - 0) : Int) : ℚ) 1 drawsBig ∧
      generate_random_message_datetimes 0 1000 1 [drawsBig] = some [11769/11] ∧
      ¬ ((11769 : ℚ) / 11 ≤ 1000) := by
  have hcast : ((pyTrunc ((1000 : ℚ) - 0) : Int) : ℚ) = 1000 := by
    rw [pyTrunc_thousand]; norm_num
  refine ⟨by norm_num, ?_, ?_, by norm_num⟩
  · rw [hcast]; exact drawsBig_valid
  · simp only [generate_random_message_datetimes]
    rw [hcast, drawsBig_run]
    norm_num

/-- C3 (amended): every generated timeline — every returning run, with no
side condition — has length equal to the requested count; and when in
addition the integer window length is at least `count + 21` and the draws
are in range, every instant lies in
`[start + 1, start + duration/(count+10) + (duration - (count+20))]` — but
not necessarily within `[start, end]`, whose upper end can be overshot. -/
theorem generate_random_message_datetimes_spec (start endt : ℚ) (count : Nat)
    (attempts : List (Nat → Draw)) (dts : List ℚ)
    (hret : generate_random_message_datetimes start endt count attempts = some dts) :
    dts.length = count ∧
      ((∀ ds ∈ attempts,
          validAttempt ((pyTrunc (endt - start) : Int) : ℚ) count ds) →
        (count : ℚ) + 21 ≤ ((pyTrunc (endt - start) : Int) : ℚ) →
        ∀ t ∈ dts, start + 1 ≤ t ∧
          t ≤ start + (mean_response_time ((pyTrunc (endt - start) : Int) : ℚ) count +
            fuzz_range_max ((pyTrunc (endt - start) : Int) : ℚ) count)) := by
  unfold generate_random_message_datetimes at hret
  obtain ⟨deltas, hdeltas, hmap⟩ := Option.map_eq_some'.mp hret
  subst hmap
  constructor
  · rw [List.length_map]
    exact generate_random_points_length_aux _ count attempts deltas hdeltas
  · intro hvalid hd t ht
    obtain ⟨delta, hmem, hdt⟩ := List.mem_map.mp ht
    obtain ⟨h1, h2⟩ :=
      generate_random_points_mem_aux _ count attempts deltas hvalid hd hdeltas
        delta hmem
    subst hdt
    exact ⟨by linarith, by linarith⟩

/-- Witness for the amended C3: window `[0, 1100]`, `count = 1`, attempt
`drawsHuge`: the timeline is `[1179]`, of length `1`, inside
`[0 + 1, 0 + (100 + 1079)]`. -/
theorem generate_random_message_datetimes_spec_witness :
    generate_random_message_datetimes 0 1100 1 [drawsHuge] = some [1179] ∧
      ([(1179 : ℚ)].length = 1 ∧
        ∀ t ∈ [(1179 : ℚ)], (0 : ℚ) + 1 ≤ t ∧
          t ≤ 0 + (mean_response_time ((pyTrunc ((1100 : ℚ) - 0) : Int) : ℚ) 1 +
            fuzz_range_max ((pyTrunc ((1100 : ℚ) - 0) : Int) : ℚ) 1)) := by
  have hcast : ((pyTrunc ((1100 : ℚ) - 0) : Int) : ℚ) = 1100 := by
    rw [pyTrunc_eleven_hundred]; norm_num
  have hrun : generate_random_message_datetimes 0 1100 1 [drawsHuge] = some [1179] := by
    simp only [generate_random_message_datetimes]
    rw [hcast, drawsHuge_run]
    norm_num
  obtain ⟨hlen, hbounds⟩ :=
    generate_random_message_datetimes_spec 0 1100 1 [drawsHuge] [1179] hrun
  refine ⟨hrun, hlen, ?_⟩
  exact hbounds
    (fun ds hds => by
      rw [List.mem_singleton.mp hds, hcast]
      exact drawsHuge_valid)
    (by rw [hcast]; norm_num)

/-- Counterexample to C5: the source computes
`mean_response_time = duration / count_with_overrun` with
`count_with_overrun = count + 10`; at `duration = 30`, `count = 10` this is
`30/20 = 3/2`, not `30/(10 + 2*10) = 1` as the claimed asymmetric
denominator `count + 2*M` would give. -/
theorem mean_response_time_not_double_margin :
    mean_response_time 30 10 ≠ (30 : ℚ) / ((10 : ℚ) + 2 * (over_run_count : ℚ)) := by
  unfold mean_response_time count_with_overrun over_run_count
  norm_num

/-- C5 (amended): the expected per-offset spacing is
`mean = duration / (count + M)` with `M = over_run_count = 10`: the
denominator is `count + M` (the effective count itself), not `count + 2*M`. -/
theorem mean_response_time_denominator (duration : ℚ) (count : Nat)
    (hd : 0 < duration) :
    mean_response_time duration count * ((count : ℚ) + (over_run_count : ℚ)) =
        duration ∧
      mean_response_time duration count ≠
        duration / ((count : ℚ) + 2 * (over_run_count : ℚ)) := by
  have hc : (0 : ℚ) ≤ (count : ℚ) := Nat.cast_nonneg count
  have hpos : (0 : ℚ) < (count : ℚ) + (over_run_count : ℚ) := by
    unfold over_run_count; push_cast; linarith
  have hpos2 : (0 : ℚ) < (count : ℚ) + 2 * (over_run_count : ℚ) := by
    unfold over_run_count; push_cast; linarith
  constructor
  · unfold mean_response_time count_with_overrun
    push_cast
    field_simp
  · unfold mean_response_time count_with_overrun
    push_cast
    intro heq
    rw [div_eq_div_iff (by linarith) (by linarith)] at heq
    unfold over_run_count at heq
    push_cast at heq
    nlinarith

/-- Witness for C5: at `duration = 30`, `count = 10`, the mean `3/2`
satisfies `3/2 * 20 = 30` and differs from `30/30 = 1`. -/
theorem mean_response_time_denominator_witness :
    (0 : ℚ) < 30 ∧
      (mean_response_time 30 10 * (((10 : Nat) : ℚ) + (over_run_count : ℚ)) = 30 ∧
        mean_response_time 30 10 ≠
          (30 : ℚ) / (((10 : Nat) : ℚ) + 2 * (over_run_count : ℚ))) :=
  ⟨by norm_num, mean_response_time_denominator 30 10 (by norm_num)⟩

/-- `MessageGenerator.weighted_random_message_count` (source lines 367-377).
The random draws are parameters: `weighted_choice` is the value of
`random.choices([1, 2], weights=[0.5, 0.5], k=1)[0]`, `small` the index the
second `random.choices([1, 2, 3, 4], ...)` picks, and `gauss` the value of
`random.gauss(25, 10)`.  `int(...)` truncates toward zero and the normal
branch returns `max(1, min(50, normal_choice))`. -/
def weighted_random_message_count (weighted_choice : Int) (small : Fin 4)
    (gauss : ℚ) : Int :=
  if weighted_choice = 1 then ([1, 2, 3, 4] : List Int).get ⟨small.val, by simp⟩
  else
    let normal_choice := pyTrunc gauss
    max 1 (min 50 normal_choice)

/-- C7: every value `weighted_random_message_count` returns lies in
`[1, 50]`, and on the small-discrete branch (`weighted_choice = 1`) it is a
member of `{1, 2, 3, 4}`; otherwise it is the truncated gauss draw clamped
to `[1, 50]`. -/
theorem weighted_random_message_count_range (weighted_choice : Int)
    (small : Fin 4) (gauss : ℚ) :
    1 ≤ weighted_random_message_count weighted_choice small gauss ∧
      weighted_random_message_count weighted_choice small gauss ≤ 50 ∧
      (weighted_choice = 1 →
        weighted_random_message_count weighted_choice small gauss ∈
          ([1, 2, 3, 4] : List Int)) := by
  unfold weighted_random_message_count
  by_cases hwc : weighted_choice = 1
  · simp only [hwc, if_pos rfl]
    fin_cases small <;> exact ⟨by norm_num, by norm_num, fun _ => by norm_num⟩
  · simp only [if_neg hwc]
    refine ⟨le_max_left 1 _, max_le (by norm_num) (min_le_left 50 _),
      fun h => absurd h hwc⟩

/-- Witness for C7: on the small branch with index `2`, the count is `3`,
inside `[1, 50]` and a member of `{1, 2, 3, 4}`. -/
theorem weighted_random_message_count_range_witness :
    1 ≤ weighted_random_message_count 1 ⟨2, by norm_num⟩ 0 ∧
      weighted_random_message_count 1 ⟨2, by norm_num⟩ 0 ≤ 50 ∧
      weighted_random_message_count 1 ⟨2, by norm_num⟩ 0 ∈
        ([1, 2, 3, 4] : List Int) := by
  obtain ⟨h1, h2, h3⟩ := weighted_random_message_count_range 1 ⟨2, by norm_num⟩ 0
  exact ⟨h1, h2, h3 rfl⟩

/-- Python `range(0, stop, step)` for a positive `step`: the values
`0, step, 2*step, …` strictly below `stop`; there are
`⌈stop/step⌉ = (stop + step - 1) / step` of them. -/
def pyRange (stop step : Nat) : List Nat :=
  (List.range ((stop + step - 1) / step)).map (fun k => k * step)

/-- Message of the `ValueError` raised by `generate_distant_style_ids`. -/
def style_ids_error : String :=
  "ValueError: cannot generate n unique style IDs - too few available"

/-- Message of the `ZeroDivisionError` raised by `len(available_ids) // n`
at `n = 0`. -/
def zero_division_error : String :=
  "ZeroDivisionError: integer division or modulo by zero"

/-- `ParticipantGenerator.generate_distant_style_ids` (source lines
286-296).  `available_ids = list(STYLE_ID_TO_COLOR.keys())` comes from
`generator_config`, a module that is not part of the source tree, so the
available identifiers are an explicit parameter here.  `n > len` raises
`ValueError`; otherwise `step = len(available_ids) // n` (a
`ZeroDivisionError` at `n = 0`), `selected_indices = range(0, len, step)`,
and the result is `[available_ids[i] for i in selected_indices][:n]`. -/
def generate_distant_style_ids (available_ids : List Int) (n : Nat) :
    Except String (List Int) :=
  if n > available_ids.length then .error style_ids_error
  else if n = 0 then .error zero_division_error
  else
    let step := available_ids.length / n
    let selected_indices := pyRange available_ids.length step
    .ok ((selected_indices.map (fun i => available_ids.getD i 0)).take n)

/-- Counterexample to C8 as stated "for every n": at `n = 0` (which is at
most the number of available identifiers) the source raises
`ZeroDivisionError` from `len(available_ids) // n` instead of returning a
list of exactly `0` identifiers. -/
theorem generate_distant_style_ids_zero :
    generate_distant_style_ids [7] 0 = .error zero_division_error ∧
      ∀ l : List Int, generate_distant_style_ids [7] 0 ≠ .ok l := by
  constructor
  · rfl
  · intro l h
    simp [generate_distant_style_ids] at h

/-- C8 (amended): for every `n ≥ 1`, if `n` exceeds the number of available
style identifiers the function raises immediately (no retry is modelled:
the error is the direct result), and if `n` is at most that number it
returns a list of exactly `n` identifiers, all drawn from the available
ones. -/
theorem generate_distant_style_ids_spec (available_ids : List Int) (n : Nat)
    (hn : 1 ≤ n) :
    (available_ids.length < n →
      generate_distant_style_ids available_ids n = .error style_ids_error) ∧
    (n ≤ available_ids.length →
      ∃ l, generate_distant_style_ids available_ids n = .ok l ∧
        l.length = n ∧ ∀ x ∈ l, x ∈ available_ids) := by
  constructor
  · intro hgt
    unfold generate_distant_style_ids
    rw [if_pos hgt]
  · intro hle
    have hL : 1 ≤ available_ids.length := le_trans hn hle
    set L := available_ids.length with hLdef
    have hstep : 1 ≤ L / n := (Nat.le_div_iff_mul_le (by omega)).mpr (by omega)
    set step := L / n with hstepdef
    have hmul : step * n ≤ L := by
      rw [hstepdef]
      exact Nat.div_mul_le_self L n
    have hcount : n ≤ (L + step - 1) / step := by
      rw [Nat.le_div_iff_mul_le (by omega)]
      have : n * step = step * n := Nat.mul_comm n step
      omega
    refine ⟨((pyRange L step).map (fun i => available_ids.getD i 0)).take n,
      ?_, ?_, ?_⟩
    · unfold generate_distant_style_ids
      rw [if_neg (by omega), if_neg (by omega)]
    · rw [List.length_take, List.length_map]
      unfold pyRange
      rw [List.length_map, List.length_range]
      omega
    · intro x hx
      obtain ⟨i, hi, hxi⟩ := List.mem_map.mp (List.mem_of_mem_take hx)
      obtain ⟨k, hk, hki⟩ := List.mem_map.mp hi
      have hkc := List.mem_range.mp hk
      have hceil : ((L + step - 1) / step) * step ≤ L + step - 1 :=
        Nat.div_mul_le_self (L + step - 1) step
      have hsucc : (k + 1) * step ≤ ((L + step - 1) / step) * step :=
        Nat.mul_le_mul_right step (by omega)
      have hkstep : k * step + step = (k + 1) * step := by ring
      have hiL : i < L := by omega
      subst hxi
      rw [List.getD_eq_getElem?_getD, List.getElem?_eq_getElem hiL]
      simp only [Option.getD_some]
      exact List.getElem_mem hiL

/-- Witness for C8: with three available identifiers and `n = 2`, the
function returns `[5, 6]`: two identifiers, both available. -/
theorem generate_distant_style_ids_spec_witness :
    (1 : Nat) ≤ 2 ∧
      ∃ l, generate_distant_style_ids [5, 6, 7] 2 = .ok l ∧
        l.length = 2 ∧ ∀ x ∈ l, x ∈ ([5, 6, 7] : List Int) :=
  ⟨by norm_num,
    (generate_distant_style_ids_spec [5, 6, 7] 2 (by norm_num)).2 (by norm_num)⟩

/-- The random draws `MessageGenerator.generate_message` performs, in source
order (source lines 409-454): the attachment roll
`random.random() < ATTACHMENT_LIKELIHOOD`, the sent roll
`random.random() < SENT_LIKELIHOOD`, the delivered roll, the delivery delay
`random.randint(min_delay, max_delay)`, the read roll and delay, and the
deleted roll and delay.  The likelihoods and delay ranges live in
`generator_config`, which is not part of the source tree, so the boolean
outcomes and delays themselves are the parameters. -/
structure MsgDraws where
  attach_roll : Bool
  sent_roll : Bool
  delivered_roll : Bool
  delivery_delay : ℚ
  read_roll : Bool
  read_delay : ℚ
  deleted_roll : Bool
  delete_delay : ℚ

/-- The `Message` dataclass (source lines 46-62); datetimes are rational
seconds and `None` is `Option.none`. -/
structure MessageModel where
  sender_uuid : String
  uuid : String
  has_attachment : Bool
  send_datetime : Option ℚ
  sent_status : Bool
  text : String
  delivered_datetime : Option ℚ
  delivered_status : Bool
  read_datetime : Option ℚ
  read_status : Bool
  deleted_datetime : Option ℚ
  deleted_status : Bool
  platform_name : String
  exhibit_uuid : String

/-- `MessageGenerator.generate_message` (source lines 408-473), with the
generated `message_uuid`, the chosen `text` and the random rolls passed in
explicitly; attachment records are omitted (their shape comes from
`generator_config`, outside the source tree, and no claim touches them):
`sent_status = random.random() < SENT_LIKELIHOOD`;
`send_datetime = ref_dt if sent_status else None`;
`delivered_status = sent_status and ...`; delivered/read/deleted datetimes
are `ref_dt` plus the drawn delay when the status holds, else `None`. -/
def generate_message (ref_dt : ℚ)
    (participant_uuid exhibit_uuid platform_name message_uuid text_choice : String)
    (dr : MsgDraws) : MessageModel :=
  let has_attachment := dr.attach_roll
  let sent_status := dr.sent_roll
  let send_datetime := if sent_status then some ref_dt else none
  let delivered_status := sent_status && dr.delivered_roll
  let delivered_datetime :=
    if delivered_status then some (ref_dt + dr.delivery_delay) else none
  let read_status := delivered_status && dr.read_roll
  let read_datetime := if read_status then some (ref_dt + dr.read_delay) else none
  let deleted_status := dr.deleted_roll
  let deleted_datetime :=
    if deleted_status then some (ref_dt + dr.delete_delay) else none
  ⟨participant_uuid, message_uuid, has_attachment, send_datetime, sent_status,
    text_choice, delivered_datetime, delivered_status, read_datetime, read_status,
    deleted_datetime, deleted_status, platform_name, exhibit_uuid⟩

/-- C9: the generated message's `send_datetime` is the reference instant
`ref_dt` exactly when the sent roll succeeded, and `None` otherwise; in
particular some random outcomes produce a message with no send time (even
though `ChatBuilder` later sorts and keys every message by
`send_datetime`). -/
theorem generate_message_send_datetime (ref_dt : ℚ)
    (participant_uuid exhibit_uuid platform_name message_uuid text_choice : String)
    (dr : MsgDraws) :
    ((generate_message ref_dt participant_uuid exhibit_uuid platform_name
        message_uuid text_choice dr).send_datetime = some ref_dt ↔
      dr.sent_roll = true) ∧
    (dr.sent_roll = false →
      (generate_message ref_dt participant_uuid exhibit_uuid platform_name
        message_uuid text_choice dr).send_datetime = none) ∧
    ∃ dr2 : MsgDraws,
      (generate_message ref_dt participant_uuid exhibit_uuid platform_name
        message_uuid text_choice dr2).send_datetime = none := by
  refine ⟨?_, ?_, ?_⟩
  · cases h : dr.sent_roll <;> simp [generate_message, h]
  · intro h
    simp [generate_message, h]
  · exact ⟨⟨dr.attach_roll, false, dr.delivered_roll, dr.delivery_delay,
      dr.read_roll, dr.read_delay, dr.deleted_roll, dr.delete_delay⟩,
      by simp [generate_message]⟩

/-- Placeholder string for identifier-valued arguments in witnesses. -/
def blank : String := ""

/-- Witness for C9: with a failed sent roll, the generated message's
`send_datetime` is `None`. -/
theorem generate_message_send_datetime_witness :
    (generate_message 7 blank blank blank blank blank
      ⟨false, false, false, 0, false, 0, false, 0⟩).send_datetime = none :=
  (generate_message_send_datetime 7 blank blank blank blank blank
    ⟨false, false, false, 0, false, 0, false, 0⟩).2.1 rfl

/-- A Python runtime value, as far as the exhibit generator needs: the
dynamic typing lets a tuple sit in a field annotated `int`. -/
inductive PyVal where
  | int : Int → PyVal
  | str : String → PyVal
  | tuple : List PyVal → PyVal

/-- Whether a runtime value actually is an `int`, as the `Exhibit`
dataclass annotation `exhibit_number: int` (source line 20) declares. -/
def PyVal.isInt : PyVal → Bool
  | .int _ => true
  | _ => false

/-- Python `v[i]` on a tuple; `none` models the `TypeError`/`IndexError`
cases. -/
def PyVal.getItem : PyVal → Nat → Option PyVal
  | .tuple vs, i => vs.get? i
  | _, _ => none

/-- Python `f"{v}"` formatting of the values that occur here. -/
def pyFormat : PyVal → String
  | .int n => toString n
  | .str s => s
  | .tuple _ => blank

/-- The `Exhibit` dataclass (source lines 15-23); `exhibit_number` carries
the runtime value actually assigned, not the annotated `int`. -/
structure ExhibitModel where
  uuid : String
  case_id : String
  exhibit_number : PyVal
  police_number : String
  extraction_date : ℚ
  name : String

/-- `ExhibitGenerator.generate_exhibit` (source lines 318-342), with the
generated uuid, the police id, the current time and the random draws passed
in.  The source line 325 reads `exhibit_number=random.randint(1, 20),` —
the trailing comma makes `exhibit_number` a one-element tuple.
`extraction_date = datetime.now() - timedelta(days=..., hours=...,
minutes=..., seconds=..., milliseconds=...)`, and
`name=f"{case_data.case_number}_{exhibit_number[0]} ({police_id})"`. -/
def generate_exhibit (case_number exhibit_uuid police_id : String) (now : ℚ)
    (num_draw days hours minutes seconds milliseconds : Int) : ExhibitModel :=
  let exhibit_number : PyVal := .tuple [.int num_draw]
  let extraction_date := now -
    ((days : ℚ) * 86400 + (hours : ℚ) * 3600 + (minutes : ℚ) * 60 +
      (seconds : ℚ) + (milliseconds : ℚ) / 1000)
  ⟨exhibit_uuid, case_number, exhibit_number, police_id, extraction_date,
    case_number ++ "_" ++
      (match exhibit_number.getItem 0 with
        | some v => pyFormat v
        | none => blank) ++ " (" ++ police_id ++ ")"⟩

/-- C10: the `exhibit_number` field of every generated exhibit is the
one-element tuple `(randint draw,)` — not an `int`, contrary to the
`Exhibit` dataclass annotation — and the exhibit name is built from the
tuple's first element `exhibit_number[0]`. -/
theorem generate_exhibit_number_is_tuple
    (case_number exhibit_uuid police_id : String) (now : ℚ)
    (num_draw days hours minutes seconds milliseconds : Int) :
    (generate_exhibit case_number exhibit_uuid police_id now num_draw days hours
        minutes seconds milliseconds).exhibit_number =
      PyVal.tuple [PyVal.int num_draw] ∧
    PyVal.isInt (generate_exhibit case_number exhibit_uuid police_id now num_draw
      days hours minutes seconds milliseconds).exhibit_number = false ∧
    (generate_exhibit case_number exhibit_uuid police_id now num_draw days hours
        minutes seconds milliseconds).name =
      case_number ++ "_" ++ toString num_draw ++ " (" ++ police_id ++ ")" :=
  ⟨rfl, rfl, rfl⟩
